import Mathlib

/-!
Shallow embedding of the solana-wallet-tracker core: the swap classifier
(`parseGenericSwap` in src/services/websocket.ts) and the position &
performance ledger (`PerformanceTracker` in src/services/performance.ts).

Numbers: the TypeScript source computes with IEEE doubles; the embedding
uses `ℚ`.  JavaScript quirks that matter are modelled explicitly:
`x || 0` on an optional number treats both `undefined` and `0` as falsy
(`jsOrQ`), and `if (p)` on a number is false for `0`.  Division by zero
in `ℚ` yields `0`; the source never divides by zero on the paths the
theorems below speak about (each division is guarded by a positivity
test in the source, mirrored here).

Maps: `Map<string, T>` is embedded as an association list with
`mapGet` / `mapSet` / `mapDelete` mirroring `get` / `set` / `delete`.
-/

namespace SolanaWalletTracker

/-! ## Data model (src/types/index.ts) -/

inductive TradeType
  | BUY
  | SELL
deriving DecidableEq, Repr

/-- One leg of `SwapInfo` (`inputToken` / `outputToken` in
src/types/index.ts).  The raw `amount : string` field (a decimal string
derived from `uiAmount`) is not used by any tracker logic and is omitted. -/
structure TokenLegInfo where
  mint : String
  symbol : String
  name : String
  uiAmount : ℚ
  decimals : ℕ
  usdValue : Option ℚ
deriving DecidableEq, Repr

structure SwapInfo where
  signature : String
  timestamp : ℕ
  inputToken : TokenLegInfo
  outputToken : TokenLegInfo
  wallet : String
deriving DecidableEq, Repr

/-- `Trade` from src/types/index.ts.  `usdValue` is declared optional there
but every constructor site in the tracker writes a number, so it is a plain
`ℚ` here; `realizedPnL` / `realizedPnLPercent` are set only on SELL trades. -/
structure Trade where
  signature : String
  timestamp : ℕ
  type : TradeType
  tokenMint : String
  tokenSymbol : String
  tokenAmount : ℚ
  solAmount : ℚ
  pricePerToken : ℚ
  usdValue : ℚ
  realizedPnL : Option ℚ
  realizedPnLPercent : Option ℚ
deriving DecidableEq, Repr

structure TokenPosition where
  mint : String
  symbol : String
  name : String
  balance : ℚ
  avgBuyPrice : ℚ
  totalInvested : ℚ
  currentValue : ℚ
  unrealizedPnL : ℚ
  unrealizedPnLPercent : ℚ
  trades : List Trade
deriving DecidableEq, Repr

structure WalletPerformance where
  walletAddress : String
  totalTrades : ℕ
  winningTrades : ℕ
  losingTrades : ℕ
  winRate : ℚ
  totalRealizedPnL : ℚ
  totalUnrealizedPnL : ℚ
  totalPnL : ℚ
  roi : ℚ
  positions : List (String × TokenPosition)
  trades : List Trade
  startingBalance : ℚ
  currentBalance : ℚ
deriving DecidableEq, Repr

/-! ## Association-list model of `Map<string, ·>` -/

def mapGet {α : Type} : List (String × α) → String → Option α
  | [], _ => none
  | (k', v) :: rest, k => if k' = k then some v else mapGet rest k

def mapSet {α : Type} : List (String × α) → String → α → List (String × α)
  | [], k, v => [(k, v)]
  | (k', v') :: rest, k, v =>
      if k' = k then (k, v) :: rest else (k', v') :: mapSet rest k v

def mapDelete {α : Type} : List (String × α) → String → List (String × α)
  | [], _ => []
  | (k', v') :: rest, k =>
      if k' = k then mapDelete rest k else (k', v') :: mapDelete rest k

/-- JavaScript `a || b` for an optional number `a`: `undefined` and `0`
are both falsy. -/
def jsOrQ (a : Option ℚ) (b : ℚ) : ℚ :=
  match a with
  | some v => if v = 0 then b else v
  | none => b

/-! ## Constants (src/services/performance.ts, src/services/websocket.ts) -/

def NATIVE_MINT : String := "So11111111111111111111111111111111111111112"
def USDC_MINT : String := "EPjFWdd5AufqSSqeM2qN1xzybapC8G4wEGGkZwyTDt1v"
def USDT_MINT : String := "Es9vMFrzaCERmJfrF4H2FYD4KCoNkY11McCe8BenwNYB"

/-- Dust threshold for closing a position (`balance <= 0.001`). -/
def DUST_THRESHOLD : ℚ := 1/1000

/-- Win/loss counters move only when `|realizedPnL| > 0.01`. -/
def MIN_MEANINGFUL_PNL : ℚ := 1/100

/-- Noise floor of the classifier (`Math.abs(diff) > 0.0001`). -/
def NOISE_FLOOR : ℚ := 1/10000

/-- `Math.abs`, written out so that it evaluates by kernel reduction. -/
def mathAbs (x : ℚ) : ℚ := if x < 0 then -x else x

def isBaseToken (mint : String) : Bool :=
  mint = NATIVE_MINT || mint = USDC_MINT || mint = USDT_MINT

/-- Diagnostics: the `console.log` warnings emitted by `processSell`. -/
inductive Diagnostic
  | sellWithoutPosition (symbol : String)
  | oversizedSale (symbol : String)
deriving DecidableEq, Repr

/-! ## Position ledger (`PerformanceTracker`, src/services/performance.ts) -/

def freshPosition (mint symbol name : String) : TokenPosition :=
  { mint := mint, symbol := symbol, name := name, balance := 0,
    avgBuyPrice := 0, totalInvested := 0, currentValue := 0,
    unrealizedPnL := 0, unrealizedPnLPercent := 0, trades := [] }

def emptyPerformance (walletAddress : String) : WalletPerformance :=
  { walletAddress := walletAddress, totalTrades := 0, winningTrades := 0,
    losingTrades := 0, winRate := 0, totalRealizedPnL := 0,
    totalUnrealizedPnL := 0, totalPnL := 0, roi := 0, positions := [],
    trades := [], startingBalance := 0, currentBalance := 0 }

/-- The win/loss counter block shared verbatim by `processSell` and
`processTokenToTokenSwap`: counters move only when `|realizedPnL| > 0.01`. -/
def bumpWinLoss (realizedPnL : ℚ) (performance : WalletPerformance) :
    WalletPerformance :=
  if MIN_MEANINGFUL_PNL < mathAbs realizedPnL then
    if 0 < realizedPnL then
      { performance with winningTrades := performance.winningTrades + 1 }
    else
      { performance with losingTrades := performance.losingTrades + 1 }
  else performance

/-- Revaluation of a position's `currentValue` / `unrealizedPnL` /
`unrealizedPnLPercent` against a spot price; the source guards it with
`if (currentPrice)`, false for `undefined` and for `0`. -/
def revaluePosition (currentPrice : Option ℚ) (position : TokenPosition) :
    TokenPosition :=
  match currentPrice with
  | some p =>
      if p ≠ 0 then
        let currentValue := position.balance * p
        let unrealizedPnL := currentValue - position.totalInvested
        { position with
          currentValue := currentValue,
          unrealizedPnL := unrealizedPnL,
          unrealizedPnLPercent :=
            if 0 < position.totalInvested then
              unrealizedPnL / position.totalInvested * 100
            else 0 }
      else position
  | none => position

/-- The BUY `Trade` record built by `processBuy`. -/
def buyTradeOf (swap : SwapInfo) : Trade :=
  let tokenAmount := swap.outputToken.uiAmount
  let costInUSD := jsOrQ swap.inputToken.usdValue 0
  { signature := swap.signature, timestamp := swap.timestamp,
    type := TradeType.BUY, tokenMint := swap.outputToken.mint,
    tokenSymbol := swap.outputToken.symbol, tokenAmount := tokenAmount,
    solAmount := 0,
    pricePerToken := if 0 < tokenAmount then costInUSD / tokenAmount else 0,
    usdValue := costInUSD, realizedPnL := none, realizedPnLPercent := none }

/-- The spot price `processBuy` revalues with:
`swap.outputToken.usdValue && tokenAmount > 0 ? usdValue / tokenAmount :
undefined` (JS truthiness: `usdValue = 0` gives `undefined`). -/
def buyCurrentPrice (swap : SwapInfo) : Option ℚ :=
  match swap.outputToken.usdValue with
  | some v =>
      if v ≠ 0 ∧ 0 < swap.outputToken.uiAmount then
        some (v / swap.outputToken.uiAmount)
      else none
  | none => none

/-- The position mutation performed by `processBuy` on the looked-up (or
freshly created) position: weighted-average cost update, then revaluation. -/
def buyPositionUpdate (swap : SwapInfo) (basePosition : TokenPosition) :
    TokenPosition :=
  let tokenAmount := swap.outputToken.uiAmount
  let costInUSD := jsOrQ swap.inputToken.usdValue 0
  let newTotalCost := basePosition.totalInvested + costInUSD
  let newTotalBalance := basePosition.balance + tokenAmount
  revaluePosition (buyCurrentPrice swap)
    { basePosition with
      avgBuyPrice := if 0 < newTotalBalance then newTotalCost / newTotalBalance else 0,
      balance := newTotalBalance,
      totalInvested := newTotalCost,
      trades := basePosition.trades ++ [buyTradeOf swap] }

/-- `processBuy` (performance.ts): always records a BUY `Trade` and updates
or creates the position for the output mint. -/
def processBuy (swap : SwapInfo) (performance : WalletPerformance) :
    WalletPerformance :=
  let tokenMint := swap.outputToken.mint
  let basePosition := (mapGet performance.positions tokenMint).getD
      (freshPosition tokenMint swap.outputToken.symbol swap.outputToken.name)
  { performance with
    trades := performance.trades ++ [buyTradeOf swap],
    totalTrades := performance.totalTrades + 1,
    positions := mapSet performance.positions tokenMint
      (buyPositionUpdate swap basePosition) }

/-- `amountToCalculate = Math.min(tokenAmount, position.balance)` in
`processSell`. -/
def sellAmount (swap : SwapInfo) (position : TokenPosition) : ℚ :=
  min swap.inputToken.uiAmount position.balance

/-- `proportionalReceived = (amountToCalculate / tokenAmount) *
receivedInUSD` in `processSell`, with `receivedInUSD =
swap.outputToken.usdValue || 0`. -/
def sellProportionalReceived (swap : SwapInfo) (position : TokenPosition) : ℚ :=
  sellAmount swap position / swap.inputToken.uiAmount
    * jsOrQ swap.outputToken.usdValue 0

/-- `realizedPnL = proportionalReceived - costBasis` in `processSell`,
with `costBasis = position.avgBuyPrice * amountToCalculate`. -/
def sellRealizedPnL (swap : SwapInfo) (position : TokenPosition) : ℚ :=
  sellProportionalReceived swap position
    - position.avgBuyPrice * sellAmount swap position

/-- The SELL `Trade` record built by `processSell` (tracked amount and
proportional USD value only). -/
def sellTradeOf (swap : SwapInfo) (position : TokenPosition) : Trade :=
  { signature := swap.signature, timestamp := swap.timestamp,
    type := TradeType.SELL, tokenMint := swap.inputToken.mint,
    tokenSymbol := swap.inputToken.symbol,
    tokenAmount := sellAmount swap position, solAmount := 0,
    pricePerToken :=
      if 0 < swap.inputToken.uiAmount then
        jsOrQ swap.outputToken.usdValue 0 / swap.inputToken.uiAmount
      else 0,
    usdValue := sellProportionalReceived swap position,
    realizedPnL := some (sellRealizedPnL swap position),
    realizedPnLPercent :=
      some (if 0 < position.avgBuyPrice * sellAmount swap position then
          sellRealizedPnL swap position
            / (position.avgBuyPrice * sellAmount swap position) * 100
        else 0) }

/-- The body of `processSell` once a position with positive balance was
found: win/loss bump, realized-P&L accumulation, proportional shrink of
the position, dust-threshold close-out, trade record. -/
def sellRecorded (pricer : String → Option ℚ) (swap : SwapInfo)
    (performance : WalletPerformance) (position : TokenPosition) :
    WalletPerformance × List Diagnostic :=
  let diags :=
    if position.balance < swap.inputToken.uiAmount then
      [Diagnostic.oversizedSale swap.inputToken.symbol]
    else []
  let realizedPnL := sellRealizedPnL swap position
  let performance := bumpWinLoss realizedPnL performance
  let performance :=
    { performance with
      totalRealizedPnL := performance.totalRealizedPnL + realizedPnL }
  let newBalance := position.balance - sellAmount swap position
  let percentageSold := sellAmount swap position / (newBalance + sellAmount swap position)
  let newInvested :=
    position.totalInvested - position.totalInvested * percentageSold
  let trade := sellTradeOf swap position
  if newBalance ≤ DUST_THRESHOLD then
    ({ performance with
        positions := mapDelete performance.positions swap.inputToken.mint,
        trades := performance.trades ++ [trade],
        totalTrades := performance.totalTrades + 1 }, diags)
  else
    let position :=
      { position with balance := newBalance, totalInvested := newInvested }
    let position := revaluePosition (pricer swap.inputToken.mint) position
    let position := { position with trades := position.trades ++ [trade] }
    ({ performance with
        positions := mapSet performance.positions swap.inputToken.mint position,
        trades := performance.trades ++ [trade],
        totalTrades := performance.totalTrades + 1 }, diags)

/-- `processSell` (performance.ts).  Returns the updated performance and the
diagnostics the source writes with `console.log`. -/
def processSell (pricer : String → Option ℚ) (swap : SwapInfo)
    (performance : WalletPerformance) : WalletPerformance × List Diagnostic :=
  match mapGet performance.positions swap.inputToken.mint with
  | none => (performance, [Diagnostic.sellWithoutPosition swap.inputToken.symbol])
  | some position =>
    if position.balance ≤ 0 then
      (performance, [Diagnostic.sellWithoutPosition swap.inputToken.symbol])
    else
      sellRecorded pricer swap performance position

/-- `realizedPnL = receivedValue - costBasis` in the sell half of
`processTokenToTokenSwap`: the entire `inputLeg.uiAmount` is costed (no
clamp to the tracked balance), `receivedValue = outputToken.usdValue || 0`. -/
def t2tRealizedPnL (swap : SwapInfo) (inputPosition : TokenPosition) : ℚ :=
  jsOrQ swap.outputToken.usdValue 0
    - inputPosition.avgBuyPrice * swap.inputToken.uiAmount

/-- The body of the sell half of `processTokenToTokenSwap` once a position
with positive balance was found.  The source also computes a
`realizedPnLPercent` here but never stores it (no `Trade` is built). -/
def t2tSellApplied (swap : SwapInfo) (performance : WalletPerformance)
    (inputPosition : TokenPosition) : WalletPerformance :=
  let realizedPnL := t2tRealizedPnL swap inputPosition
  let performance := bumpWinLoss realizedPnL performance
  let performance :=
    { performance with
      totalRealizedPnL := performance.totalRealizedPnL + realizedPnL }
  let newBalance := inputPosition.balance - swap.inputToken.uiAmount
  let percentageSold :=
    swap.inputToken.uiAmount / (newBalance + swap.inputToken.uiAmount)
  let newInvested :=
    inputPosition.totalInvested - inputPosition.totalInvested * percentageSold
  if newBalance ≤ DUST_THRESHOLD then
    { performance with
      positions := mapDelete performance.positions swap.inputToken.mint }
  else
    { performance with
      positions := mapSet performance.positions swap.inputToken.mint
        { inputPosition with
          balance := newBalance, totalInvested := newInvested } }

/-- First half of `processTokenToTokenSwap`: if a position in the input
token exists with positive balance, realize P&L on the full input amount
and shrink or delete the position.  No `Trade` record is built here. -/
def t2tSellPhase (swap : SwapInfo) (performance : WalletPerformance) :
    WalletPerformance :=
  match mapGet performance.positions swap.inputToken.mint with
  | some inputPosition =>
    if 0 < inputPosition.balance then
      t2tSellApplied swap performance inputPosition
    else performance
  | none => performance

/-- The output value used by the buy half of `processTokenToTokenSwap`:
`swap.outputToken.usdValue || swap.inputToken.usdValue || 0`. -/
def t2tOutputValue (swap : SwapInfo) : ℚ :=
  jsOrQ swap.outputToken.usdValue (jsOrQ swap.inputToken.usdValue 0)

/-- The BUY `Trade` record built by the buy half of
`processTokenToTokenSwap`. -/
def t2tBuyTradeOf (swap : SwapInfo) : Trade :=
  let outputAmount := swap.outputToken.uiAmount
  let outputValue := t2tOutputValue swap
  { signature := swap.signature, timestamp := swap.timestamp,
    type := TradeType.BUY, tokenMint := swap.outputToken.mint,
    tokenSymbol := swap.outputToken.symbol, tokenAmount := outputAmount,
    solAmount := 0,
    pricePerToken := if 0 < outputAmount then outputValue / outputAmount else 0,
    usdValue := outputValue, realizedPnL := none, realizedPnLPercent := none }

/-- The position mutation performed by the buy half of
`processTokenToTokenSwap` (same weighted-average block as `processBuy`,
but valued at `t2tOutputValue` and with no revaluation step). -/
def t2tBuyPositionUpdate (swap : SwapInfo) (basePosition : TokenPosition) :
    TokenPosition :=
  let outputAmount := swap.outputToken.uiAmount
  let outputValue := t2tOutputValue swap
  let newTotalCost := basePosition.totalInvested + outputValue
  let newTotalBalance := basePosition.balance + outputAmount
  { basePosition with
    avgBuyPrice := if 0 < newTotalBalance then newTotalCost / newTotalBalance else 0,
    balance := newTotalBalance,
    totalInvested := newTotalCost,
    trades := basePosition.trades ++ [t2tBuyTradeOf swap] }

/-- Second half of `processTokenToTokenSwap`: treat the output leg as a buy
(weighted-average update, one BUY trade; no revaluation step here). -/
def t2tBuyPhase (swap : SwapInfo) (performance : WalletPerformance) :
    WalletPerformance :=
  let outputMint := swap.outputToken.mint
  let basePosition := (mapGet performance.positions outputMint).getD
      (freshPosition outputMint swap.outputToken.symbol swap.outputToken.name)
  { performance with
    positions := mapSet performance.positions outputMint
      (t2tBuyPositionUpdate swap basePosition),
    trades := performance.trades ++ [t2tBuyTradeOf swap],
    totalTrades := performance.totalTrades + 1 }

def processTokenToTokenSwap (swap : SwapInfo)
    (performance : WalletPerformance) : WalletPerformance :=
  t2tBuyPhase swap (t2tSellPhase swap performance)

/-- `updateMetrics` (performance.ts): pure re-derivation of the aggregate
metrics from current state. -/
def updateMetrics (performance : WalletPerformance) : WalletPerformance :=
  let totalUnrealizedPnL :=
    (performance.positions.map (fun e => e.2.unrealizedPnL)).sum
  let totalInvested :=
    (performance.positions.map (fun e => e.2.totalInvested)).sum
  let totalPnL := performance.totalRealizedPnL + totalUnrealizedPnL
  let totalClosedTrades := performance.winningTrades + performance.losingTrades
  let totalCapital := totalInvested + mathAbs performance.totalRealizedPnL
  { performance with
    totalUnrealizedPnL := totalUnrealizedPnL,
    totalPnL := totalPnL,
    winRate :=
      if 0 < totalClosedTrades then
        (performance.winningTrades : ℚ) / (totalClosedTrades : ℚ) * 100
      else 0,
    roi := if 0 < totalCapital then totalPnL / totalCapital * 100 else 0 }

/-- `processSwap` (performance.ts), per wallet: direction dispatch, then
`updateMetrics`; base-to-base conversions return before either. -/
def processSwapOnPerformance (pricer : String → Option ℚ) (swap : SwapInfo)
    (performance : WalletPerformance) : WalletPerformance × List Diagnostic :=
  let inputIsBaseToken := isBaseToken swap.inputToken.mint
  let outputIsBaseToken := isBaseToken swap.outputToken.mint
  if inputIsBaseToken && outputIsBaseToken then
    (performance, [])
  else
    let step : WalletPerformance × List Diagnostic :=
      if inputIsBaseToken && !outputIsBaseToken then
        (processBuy swap performance, [])
      else if !inputIsBaseToken && outputIsBaseToken then
        processSell pricer swap performance
      else
        (processTokenToTokenSwap swap performance, [])
    (updateMetrics step.1, step.2)

/-- Per-wallet event history: fold `processSwap` over an ordered list of
swaps (state of one wallet; other wallets' events never touch it). -/
def applySwaps (pricer : String → Option ℚ) (swaps : List SwapInfo)
    (performance : WalletPerformance) : WalletPerformance :=
  swaps.foldl (fun p s => (processSwapOnPerformance pricer s p).1) performance

/-! ## Swap classifier (`parseGenericSwap`, src/services/websocket.ts) -/

/-- One entry of `meta.preTokenBalances` / `meta.postTokenBalances`:
`accountIndex`, `mint`, `uiTokenAmount.uiAmountString` (as `ℚ`) and
`uiTokenAmount.decimals`. -/
structure TokenBalanceEntry where
  accountIndex : ℕ
  mint : String
  uiAmount : ℚ
  decimals : ℕ
deriving DecidableEq, Repr

/-- One element of the classifier's `changes` array. -/
structure BalanceChange where
  mint : String
  change : ℚ
  decimals : ℕ
deriving DecidableEq, Repr

/-- Token metadata from the Pricer (`jupiterService.getTokenInfo`). -/
structure TokenMeta where
  symbol : String
  name : String
deriving DecidableEq, Repr

/-- The `changes` collection loop of `parseGenericSwap`: for each post
balance, find the pre balance with the same `accountIndex`; keep the delta
when it exceeds the noise floor.  Post entries without a matching pre entry
are skipped. -/
def collectChanges (pre post : List TokenBalanceEntry) : List BalanceChange :=
  post.filterMap fun pb =>
    match pre.find? (fun pr => pr.accountIndex == pb.accountIndex) with
    | some pr =>
        let diff := pb.uiAmount - pr.uiAmount
        if NOISE_FLOOR < mathAbs diff then
          some { mint := pb.mint, change := diff, decimals := pb.decimals }
        else none
    | none => none

/-- Construction of one `SwapInfo` leg from a balance change, with the
source's fallbacks: `info?.symbol || 'UNKNOWN'`, `info?.name ||
'Unknown Token'` (empty strings are falsy), and
`price ? |change| * price : undefined` (a `0` price is falsy). -/
def mkLeg (info : String → Option TokenMeta) (price : String → Option ℚ)
    (c : BalanceChange) : TokenLegInfo :=
  { mint := c.mint,
    symbol :=
      match info c.mint with
      | some m => if m.symbol = "" then "UNKNOWN" else m.symbol
      | none => "UNKNOWN",
    name :=
      match info c.mint with
      | some m => if m.name = "" then "Unknown Token" else m.name
      | none => "Unknown Token",
    uiAmount := mathAbs c.change,
    decimals := c.decimals,
    usdValue :=
      match price c.mint with
      | some p => if p = 0 then none else some (mathAbs c.change * p)
      | none => none }

/-- `parseGenericSwap` (websocket.ts): null on missing balance metadata or
fewer than two qualifying changes; otherwise the first negative-delta
change becomes the input leg and the first positive-delta change the
output leg (`changes.find`), or null if either side is missing.
`timestamp` is `Date.now()` in the source, a parameter here. -/
def parseGenericSwap (info : String → Option TokenMeta)
    (price : String → Option ℚ) (signature : String) (timestamp : ℕ)
    (walletAddress : String)
    (preTokenBalances postTokenBalances : Option (List TokenBalanceEntry)) :
    Option SwapInfo :=
  match preTokenBalances, postTokenBalances with
  | some pre, some post =>
    let changes := collectChanges pre post
    if changes.length < 2 then none
    else
      match changes.find? (fun c => decide (c.change < 0)),
            changes.find? (fun c => decide (0 < c.change)) with
      | some input, some output =>
          some { signature := signature, timestamp := timestamp,
                 inputToken := mkLeg info price input,
                 outputToken := mkLeg info price output,
                 wallet := walletAddress }
      | _, _ => none
  | _, _ => none

/-- The caller-side gate in `handleTransaction` (websocket.ts): a parsed
swap reaches the ledger only if its legs have different mints, different
symbols, and are not both base tokens. -/
def callerAcceptsSwap (swapInfo : SwapInfo) : Bool :=
  let isDifferentTokens :=
    decide (swapInfo.inputToken.mint ≠ swapInfo.outputToken.mint)
  let isNotJustTransfer :=
    decide (swapInfo.inputToken.symbol ≠ swapInfo.outputToken.symbol)
  let isBothBaseTokens :=
    isBaseToken swapInfo.inputToken.mint && isBaseToken swapInfo.outputToken.mint
  !(!isDifferentTokens || !isNotJustTransfer || isBothBaseTokens)

/-! ## Helper lemmas: association-list maps -/

theorem mapGet_mapSet_self {α : Type} (l : List (String × α)) (k : String)
    (v : α) : mapGet (mapSet l k v) k = some v := by
  induction l with
  | nil => simp [mapSet, mapGet]
  | cons e rest ih =>
    obtain ⟨k', v'⟩ := e
    by_cases h : k' = k
    · simp [mapSet, h, mapGet]
    · simp [mapSet, h, mapGet, ih]

theorem mapGet_mapSet_ne {α : Type} (l : List (String × α)) (k k' : String)
    (v : α) (h : k' ≠ k) : mapGet (mapSet l k v) k' = mapGet l k' := by
  have h' : ¬ k = k' := fun he => h he.symm
  induction l with
  | nil => simp [mapSet, mapGet, h']
  | cons e rest ih =>
    obtain ⟨k₀, v₀⟩ := e
    by_cases h₀ : k₀ = k
    · simp [mapSet, h₀, mapGet, h']
    · simp [mapSet, h₀, mapGet, ih]

theorem mapGet_mapDelete_self {α : Type} (l : List (String × α)) (k : String) :
    mapGet (mapDelete l k) k = none := by
  induction l with
  | nil => simp [mapDelete, mapGet]
  | cons e rest ih =>
    obtain ⟨k₀, v₀⟩ := e
    by_cases h₀ : k₀ = k
    · simp [mapDelete, h₀, ih]
    · simp [mapDelete, h₀, mapGet, ih]

theorem mapGet_mapDelete_ne {α : Type} (l : List (String × α)) (k k' : String)
    (h : k' ≠ k) : mapGet (mapDelete l k) k' = mapGet l k' := by
  induction l with
  | nil => simp [mapDelete]
  | cons e rest ih =>
    obtain ⟨k₀, v₀⟩ := e
    by_cases h₀ : k₀ = k
    · have h₁ : ¬ k = k' := fun he => h he.symm
      simp [mapDelete, h₀, mapGet, h₁, ih]
    · simp [mapDelete, h₀, mapGet, ih]

/-- `List.find?` returns the head of the suffix starting at the first
element satisfying the predicate. -/
theorem find?_append_first {α : Type} (p : α → Bool) (l₁ : List α) (a : α)
    (l₂ : List α) (h₁ : ∀ x ∈ l₁, p x = false) (ha : p a = true) :
    (l₁ ++ a :: l₂).find? p = some a := by
  induction l₁ with
  | nil => simp [List.find?_cons_of_pos, ha]
  | cons x xs ih =>
    rw [List.cons_append, List.find?_cons_of_neg]
    · exact ih fun y hy => h₁ y (List.mem_cons_of_mem _ hy)
    · simp [h₁ x (List.mem_cons_self _ _)]

/-! ## Helper lemmas: field projections of the ledger operations -/

theorem bumpWinLoss_trades (pnl : ℚ) (p : WalletPerformance) :
    (bumpWinLoss pnl p).trades = p.trades := by
  unfold bumpWinLoss; split <;> [split <;> rfl; rfl]

theorem bumpWinLoss_totalTrades (pnl : ℚ) (p : WalletPerformance) :
    (bumpWinLoss pnl p).totalTrades = p.totalTrades := by
  unfold bumpWinLoss; split <;> [split <;> rfl; rfl]

theorem bumpWinLoss_totalRealizedPnL (pnl : ℚ) (p : WalletPerformance) :
    (bumpWinLoss pnl p).totalRealizedPnL = p.totalRealizedPnL := by
  unfold bumpWinLoss; split <;> [split <;> rfl; rfl]

theorem bumpWinLoss_positions (pnl : ℚ) (p : WalletPerformance) :
    (bumpWinLoss pnl p).positions = p.positions := by
  unfold bumpWinLoss; split <;> [split <;> rfl; rfl]

theorem revaluePosition_balance (cp : Option ℚ) (pos : TokenPosition) :
    (revaluePosition cp pos).balance = pos.balance := by
  cases cp with
  | none => rfl
  | some p => by_cases h : p ≠ 0 <;> simp [revaluePosition, h]

theorem revaluePosition_totalInvested (cp : Option ℚ) (pos : TokenPosition) :
    (revaluePosition cp pos).totalInvested = pos.totalInvested := by
  cases cp with
  | none => rfl
  | some p => by_cases h : p ≠ 0 <;> simp [revaluePosition, h]

theorem revaluePosition_avgBuyPrice (cp : Option ℚ) (pos : TokenPosition) :
    (revaluePosition cp pos).avgBuyPrice = pos.avgBuyPrice := by
  cases cp with
  | none => rfl
  | some p => by_cases h : p ≠ 0 <;> simp [revaluePosition, h]

theorem updateMetrics_trades (p : WalletPerformance) :
    (updateMetrics p).trades = p.trades := rfl

theorem updateMetrics_totalTrades (p : WalletPerformance) :
    (updateMetrics p).totalTrades = p.totalTrades := rfl

theorem updateMetrics_totalRealizedPnL (p : WalletPerformance) :
    (updateMetrics p).totalRealizedPnL = p.totalRealizedPnL := rfl

theorem updateMetrics_positions (p : WalletPerformance) :
    (updateMetrics p).positions = p.positions := rfl

theorem processBuy_trades (swap : SwapInfo) (p : WalletPerformance) :
    (processBuy swap p).trades = p.trades ++ [buyTradeOf swap] := rfl

theorem processBuy_totalTrades (swap : SwapInfo) (p : WalletPerformance) :
    (processBuy swap p).totalTrades = p.totalTrades + 1 := rfl

theorem processBuy_totalRealizedPnL (swap : SwapInfo) (p : WalletPerformance) :
    (processBuy swap p).totalRealizedPnL = p.totalRealizedPnL := rfl

theorem processBuy_positions (swap : SwapInfo) (p : WalletPerformance) :
    (processBuy swap p).positions =
      mapSet p.positions swap.outputToken.mint
        (buyPositionUpdate swap
          ((mapGet p.positions swap.outputToken.mint).getD
            (freshPosition swap.outputToken.mint swap.outputToken.symbol
              swap.outputToken.name))) := rfl

theorem t2tBuyPhase_trades (swap : SwapInfo) (p : WalletPerformance) :
    (t2tBuyPhase swap p).trades = p.trades ++ [t2tBuyTradeOf swap] := rfl

theorem t2tBuyPhase_totalTrades (swap : SwapInfo) (p : WalletPerformance) :
    (t2tBuyPhase swap p).totalTrades = p.totalTrades + 1 := rfl

theorem t2tBuyPhase_totalRealizedPnL (swap : SwapInfo) (p : WalletPerformance) :
    (t2tBuyPhase swap p).totalRealizedPnL = p.totalRealizedPnL := rfl

theorem t2tBuyPhase_positions (swap : SwapInfo) (p : WalletPerformance) :
    (t2tBuyPhase swap p).positions =
      mapSet p.positions swap.outputToken.mint
        (t2tBuyPositionUpdate swap
          ((mapGet p.positions swap.outputToken.mint).getD
            (freshPosition swap.outputToken.mint swap.outputToken.symbol
              swap.outputToken.name))) := rfl

theorem sellRecorded_trades (pricer : String → Option ℚ) (swap : SwapInfo)
    (p : WalletPerformance) (pos : TokenPosition) :
    (sellRecorded pricer swap p pos).1.trades = p.trades ++ [sellTradeOf swap pos] := by
  simp only [sellRecorded]
  split <;> split <;> simp [bumpWinLoss_trades]

theorem sellRecorded_totalTrades (pricer : String → Option ℚ) (swap : SwapInfo)
    (p : WalletPerformance) (pos : TokenPosition) :
    (sellRecorded pricer swap p pos).1.totalTrades = p.totalTrades + 1 := by
  simp only [sellRecorded]
  split <;> split <;> simp [bumpWinLoss_totalTrades]

theorem sellRecorded_totalRealizedPnL (pricer : String → Option ℚ)
    (swap : SwapInfo) (p : WalletPerformance) (pos : TokenPosition) :
    (sellRecorded pricer swap p pos).1.totalRealizedPnL =
      p.totalRealizedPnL + sellRealizedPnL swap pos := by
  simp only [sellRecorded]
  split <;> split <;> simp [bumpWinLoss_totalRealizedPnL]

theorem sellRecorded_positions_dust (pricer : String → Option ℚ)
    (swap : SwapInfo) (p : WalletPerformance) (pos : TokenPosition)
    (hd : pos.balance - sellAmount swap pos ≤ DUST_THRESHOLD) :
    (sellRecorded pricer swap p pos).1.positions =
      mapDelete p.positions swap.inputToken.mint := by
  simp only [sellRecorded]
  rw [if_pos hd]
  split <;> simp [bumpWinLoss_positions]

theorem sellRecorded_positions_keep (pricer : String → Option ℚ)
    (swap : SwapInfo) (p : WalletPerformance) (pos : TokenPosition)
    (hd : ¬ pos.balance - sellAmount swap pos ≤ DUST_THRESHOLD) :
    ∃ q : TokenPosition,
      (sellRecorded pricer swap p pos).1.positions =
        mapSet p.positions swap.inputToken.mint q ∧
      q.balance = pos.balance - sellAmount swap pos := by
  simp only [sellRecorded]
  rw [if_neg hd]
  simp only [bumpWinLoss_positions]
  exact ⟨_, rfl, by simp [revaluePosition_balance]⟩

theorem processSell_untracked (pricer : String → Option ℚ) (swap : SwapInfo)
    (p : WalletPerformance)
    (h : mapGet p.positions swap.inputToken.mint = none ∨
         ∃ pos, mapGet p.positions swap.inputToken.mint = some pos ∧
           pos.balance ≤ 0) :
    processSell pricer swap p =
      (p, [Diagnostic.sellWithoutPosition swap.inputToken.symbol]) := by
  rcases h with h | ⟨pos, hpos, hb⟩
  · simp [processSell, h]
  · simp [processSell, hpos, hb]

theorem processSell_tracked (pricer : String → Option ℚ) (swap : SwapInfo)
    (p : WalletPerformance) (pos : TokenPosition)
    (hpos : mapGet p.positions swap.inputToken.mint = some pos)
    (hb : 0 < pos.balance) :
    processSell pricer swap p = sellRecorded pricer swap p pos := by
  simp [processSell, hpos, not_le.mpr hb]

theorem t2tSellApplied_trades (swap : SwapInfo) (p : WalletPerformance)
    (pos : TokenPosition) :
    (t2tSellApplied swap p pos).trades = p.trades := by
  simp only [t2tSellApplied]
  split <;> simp [bumpWinLoss_trades]

theorem t2tSellApplied_totalTrades (swap : SwapInfo) (p : WalletPerformance)
    (pos : TokenPosition) :
    (t2tSellApplied swap p pos).totalTrades = p.totalTrades := by
  simp only [t2tSellApplied]
  split <;> simp [bumpWinLoss_totalTrades]

theorem t2tSellApplied_totalRealizedPnL (swap : SwapInfo)
    (p : WalletPerformance) (pos : TokenPosition) :
    (t2tSellApplied swap p pos).totalRealizedPnL =
      p.totalRealizedPnL + t2tRealizedPnL swap pos := by
  simp only [t2tSellApplied]
  split <;> simp [bumpWinLoss_totalRealizedPnL]

theorem t2tSellApplied_positions_dust (swap : SwapInfo)
    (p : WalletPerformance) (pos : TokenPosition)
    (hd : pos.balance - swap.inputToken.uiAmount ≤ DUST_THRESHOLD) :
    (t2tSellApplied swap p pos).positions =
      mapDelete p.positions swap.inputToken.mint := by
  simp only [t2tSellApplied]
  rw [if_pos hd]
  simp [bumpWinLoss_positions]

theorem t2tSellApplied_positions_keep (swap : SwapInfo)
    (p : WalletPerformance) (pos : TokenPosition)
    (hd : ¬ pos.balance - swap.inputToken.uiAmount ≤ DUST_THRESHOLD) :
    ∃ q : TokenPosition,
      (t2tSellApplied swap p pos).positions =
        mapSet p.positions swap.inputToken.mint q ∧
      q.balance = pos.balance - swap.inputToken.uiAmount := by
  simp only [t2tSellApplied]
  rw [if_neg hd]
  simp only [bumpWinLoss_positions]
  exact ⟨_, rfl, rfl⟩

theorem t2tSellPhase_trades (swap : SwapInfo) (p : WalletPerformance) :
    (t2tSellPhase swap p).trades = p.trades := by
  simp only [t2tSellPhase]
  cases hm : mapGet p.positions swap.inputToken.mint with
  | none => rfl
  | some pos =>
    by_cases hb : 0 < pos.balance <;> simp [hb, t2tSellApplied_trades]

theorem t2tSellPhase_totalTrades (swap : SwapInfo) (p : WalletPerformance) :
    (t2tSellPhase swap p).totalTrades = p.totalTrades := by
  simp only [t2tSellPhase]
  cases hm : mapGet p.positions swap.inputToken.mint with
  | none => rfl
  | some pos =>
    by_cases hb : 0 < pos.balance <;> simp [hb, t2tSellApplied_totalTrades]

theorem mapGet_t2tSellPhase_ne (swap : SwapInfo) (p : WalletPerformance)
    (m : String) (h : m ≠ swap.inputToken.mint) :
    mapGet (t2tSellPhase swap p).positions m = mapGet p.positions m := by
  simp only [t2tSellPhase]
  cases hm : mapGet p.positions swap.inputToken.mint with
  | none => rfl
  | some pos =>
    by_cases hb : 0 < pos.balance
    · simp only [hb, if_true]
      by_cases hd : pos.balance - swap.inputToken.uiAmount ≤ DUST_THRESHOLD
      · rw [t2tSellApplied_positions_dust swap p pos hd,
          mapGet_mapDelete_ne _ _ _ h]
      · obtain ⟨q, hq, -⟩ := t2tSellApplied_positions_keep swap p pos hd
        rw [hq, mapGet_mapSet_ne _ _ _ _ h]
    · simp [hb]

/-! ## Helper lemmas: direction dispatch and event folding -/

theorem dispatch_baseToBase (pricer : String → Option ℚ) (swap : SwapInfo)
    (p : WalletPerformance) (h1 : isBaseToken swap.inputToken.mint = true)
    (h2 : isBaseToken swap.outputToken.mint = true) :
    processSwapOnPerformance pricer swap p = (p, []) := by
  simp [processSwapOnPerformance, h1, h2]

theorem dispatch_buy (pricer : String → Option ℚ) (swap : SwapInfo)
    (p : WalletPerformance) (h1 : isBaseToken swap.inputToken.mint = true)
    (h2 : isBaseToken swap.outputToken.mint = false) :
    processSwapOnPerformance pricer swap p =
      (updateMetrics (processBuy swap p), []) := by
  simp [processSwapOnPerformance, h1, h2]

theorem dispatch_sell (pricer : String → Option ℚ) (swap : SwapInfo)
    (p : WalletPerformance) (h1 : isBaseToken swap.inputToken.mint = false)
    (h2 : isBaseToken swap.outputToken.mint = true) :
    processSwapOnPerformance pricer swap p =
      (updateMetrics (processSell pricer swap p).1,
        (processSell pricer swap p).2) := by
  simp [processSwapOnPerformance, h1, h2]

theorem dispatch_t2t (pricer : String → Option ℚ) (swap : SwapInfo)
    (p : WalletPerformance) (h1 : isBaseToken swap.inputToken.mint = false)
    (h2 : isBaseToken swap.outputToken.mint = false) :
    processSwapOnPerformance pricer swap p =
      (updateMetrics (processTokenToTokenSwap swap p), []) := by
  simp [processSwapOnPerformance, h1, h2]

theorem applySwaps_invariant (pricer : String → Option ℚ)
    (P : WalletPerformance → Prop) :
    ∀ (swaps : List SwapInfo) (p : WalletPerformance),
      (∀ s q, s ∈ swaps → P q → P ((processSwapOnPerformance pricer s q).1)) →
      P p → P (applySwaps pricer swaps p) := by
  intro swaps
  induction swaps with
  | nil => intro p _ hp; simpa [applySwaps] using hp
  | cons s rest ih =>
    intro p hstep hp
    have h1 : P ((processSwapOnPerformance pricer s p).1) :=
      hstep s p (List.mem_cons_self _ _) hp
    have h2 := ih ((processSwapOnPerformance pricer s p).1)
      (fun a q ha hq => hstep a q (List.mem_cons_of_mem _ ha) hq) h1
    simpa [applySwaps] using h2

/-! ## Helper lemmas: positive-balance invariant (used by C5) -/

/-- Every position held in the positions map has strictly positive balance. -/
def posInv (p : WalletPerformance) : Prop :=
  ∀ m q, mapGet p.positions m = some q → 0 < q.balance

theorem dust_pos : (0 : ℚ) < DUST_THRESHOLD := by norm_num [DUST_THRESHOLD]

theorem posInv_processBuy (swap : SwapInfo) (p : WalletPerformance)
    (ha : 0 < swap.outputToken.uiAmount) (h : posInv p) :
    posInv (processBuy swap p) := by
  intro m q hq
  rw [processBuy_positions] at hq
  by_cases hm : m = swap.outputToken.mint
  · subst hm
    rw [mapGet_mapSet_self] at hq
    have hq' := Option.some.inj hq
    subst hq'
    have hbase : 0 ≤ ((mapGet p.positions swap.outputToken.mint).getD
        (freshPosition swap.outputToken.mint swap.outputToken.symbol
          swap.outputToken.name)).balance := by
      cases hb : mapGet p.positions swap.outputToken.mint with
      | none => simp [hb, freshPosition]
      | some b => simpa [hb] using le_of_lt (h _ b hb)
    simp only [buyPositionUpdate, revaluePosition_balance]
    exact add_pos_of_nonneg_of_pos hbase ha
  · rw [mapGet_mapSet_ne _ _ _ _ hm] at hq
    exact h m q hq

theorem posInv_sellRecorded (pricer : String → Option ℚ) (swap : SwapInfo)
    (p : WalletPerformance) (pos : TokenPosition) (h : posInv p) :
    posInv (sellRecorded pricer swap p pos).1 := by
  intro m q hq
  by_cases hd : pos.balance - sellAmount swap pos ≤ DUST_THRESHOLD
  · rw [sellRecorded_positions_dust _ _ _ _ hd] at hq
    by_cases hm : m = swap.inputToken.mint
    · subst hm; rw [mapGet_mapDelete_self] at hq; cases hq
    · rw [mapGet_mapDelete_ne _ _ _ hm] at hq
      exact h m q hq
  · obtain ⟨r, hr, hbal⟩ := sellRecorded_positions_keep pricer swap p pos hd
    rw [hr] at hq
    by_cases hm : m = swap.inputToken.mint
    · subst hm
      rw [mapGet_mapSet_self] at hq
      have hq' := Option.some.inj hq
      subst hq'
      rw [hbal]
      exact lt_trans dust_pos (not_le.mp hd)
    · rw [mapGet_mapSet_ne _ _ _ _ hm] at hq
      exact h m q hq

theorem posInv_processSell (pricer : String → Option ℚ) (swap : SwapInfo)
    (p : WalletPerformance) (h : posInv p) :
    posInv (processSell pricer swap p).1 := by
  cases hm : mapGet p.positions swap.inputToken.mint with
  | none => rw [processSell_untracked pricer swap p (Or.inl hm)]; exact h
  | some pos =>
    by_cases hb : 0 < pos.balance
    · rw [processSell_tracked pricer swap p pos hm hb]
      exact posInv_sellRecorded pricer swap p pos h
    · rw [processSell_untracked pricer swap p
        (Or.inr ⟨pos, hm, not_lt.mp hb⟩)]
      exact h

theorem posInv_t2tSellApplied (swap : SwapInfo) (p : WalletPerformance)
    (pos : TokenPosition) (h : posInv p) :
    posInv (t2tSellApplied swap p pos) := by
  intro m q hq
  by_cases hd : pos.balance - swap.inputToken.uiAmount ≤ DUST_THRESHOLD
  · rw [t2tSellApplied_positions_dust _ _ _ hd] at hq
    by_cases hm : m = swap.inputToken.mint
    · subst hm; rw [mapGet_mapDelete_self] at hq; cases hq
    · rw [mapGet_mapDelete_ne _ _ _ hm] at hq
      exact h m q hq
  · obtain ⟨r, hr, hbal⟩ := t2tSellApplied_positions_keep swap p pos hd
    rw [hr] at hq
    by_cases hm : m = swap.inputToken.mint
    · subst hm
      rw [mapGet_mapSet_self] at hq
      have hq' := Option.some.inj hq
      subst hq'
      rw [hbal]
      exact lt_trans dust_pos (not_le.mp hd)
    · rw [mapGet_mapSet_ne _ _ _ _ hm] at hq
      exact h m q hq

theorem posInv_t2tSellPhase (swap : SwapInfo) (p : WalletPerformance)
    (h : posInv p) : posInv (t2tSellPhase swap p) := by
  unfold t2tSellPhase
  cases hm : mapGet p.positions swap.inputToken.mint with
  | none => exact h
  | some pos =>
    by_cases hb : 0 < pos.balance
    · simpa [hb] using posInv_t2tSellApplied swap p pos h
    · simpa [hb] using h

theorem posInv_t2tBuyPhase (swap : SwapInfo) (p : WalletPerformance)
    (ha : 0 < swap.outputToken.uiAmount) (h : posInv p) :
    posInv (t2tBuyPhase swap p) := by
  intro m q hq
  rw [t2tBuyPhase_positions] at hq
  by_cases hm : m = swap.outputToken.mint
  · subst hm
    rw [mapGet_mapSet_self] at hq
    have hq' := Option.some.inj hq
    subst hq'
    have hbase : 0 ≤ ((mapGet p.positions swap.outputToken.mint).getD
        (freshPosition swap.outputToken.mint swap.outputToken.symbol
          swap.outputToken.name)).balance := by
      cases hb : mapGet p.positions swap.outputToken.mint with
      | none => simp [hb, freshPosition]
      | some b => simpa [hb] using le_of_lt (h _ b hb)
    simp only [t2tBuyPositionUpdate]
    exact add_pos_of_nonneg_of_pos hbase ha
  · rw [mapGet_mapSet_ne _ _ _ _ hm] at hq
    exact h m q hq

theorem posInv_updateMetrics (p : WalletPerformance) (h : posInv p) :
    posInv (updateMetrics p) := by
  intro m q hq
  rw [updateMetrics_positions] at hq
  exact h m q hq

theorem posInv_step (pricer : String → Option ℚ) (swap : SwapInfo)
    (p : WalletPerformance) (ha : 0 < swap.outputToken.uiAmount)
    (h : posInv p) : posInv (processSwapOnPerformance pricer swap p).1 := by
  cases h1 : isBaseToken swap.inputToken.mint <;>
    cases h2 : isBaseToken swap.outputToken.mint
  · rw [dispatch_t2t pricer swap p h1 h2]
    exact posInv_updateMetrics _
      (posInv_t2tBuyPhase swap _ ha (posInv_t2tSellPhase swap p h))
  · rw [dispatch_sell pricer swap p h1 h2]
    exact posInv_updateMetrics _ (posInv_processSell pricer swap p h)
  · rw [dispatch_buy pricer swap p h1 h2]
    exact posInv_updateMetrics _ (posInv_processBuy swap p ha h)
  · rw [dispatch_baseToBase pricer swap p h1 h2]
    exact h

/-! ## Concrete scenario inputs (used by counterexamples and witnesses) -/

/-- Pricer that never resolves a price. -/
def pricerNone : String → Option ℚ := fun _ => none

/-- Scenario C of the spec: open position of 50 TOKA at `avgBuyPrice` 1. -/
def scenarioCPosition : TokenPosition :=
  { freshPosition "TOKA" "A" "TokenA" with
    balance := 50, avgBuyPrice := 1, totalInvested := 50 }

def scenarioCPerf : WalletPerformance :=
  { emptyPerformance "W" with positions := [("TOKA", scenarioCPosition)] }

/-- Scenario C of the spec: SELL event reporting 80 TOKA sold for 100 USD. -/
def scenarioCSell : SwapInfo :=
  { signature := "SIG1", timestamp := 0,
    inputToken := { mint := "TOKA", symbol := "A", name := "TokenA",
                    uiAmount := 80, decimals := 6, usdValue := none },
    outputToken := { mint := NATIVE_MINT, symbol := "SOL", name := "Solana",
                     uiAmount := 1, decimals := 9, usdValue := some 100 },
    wallet := "W" }

/-- Scenario B of the spec: a SELL of a mint with no open position. -/
def untrackedSell : SwapInfo :=
  { signature := "SIG2", timestamp := 0,
    inputToken := { mint := "XTOK", symbol := "X", name := "TokenX",
                    uiAmount := 5, decimals := 6, usdValue := none },
    outputToken := { mint := USDC_MINT, symbol := "USDC", name := "USD Coin",
                     uiAmount := 3, decimals := 6, usdValue := some 3 },
    wallet := "W" }

/-- Buy 100 AAA for 10 USD of SOL (establishes `avgBuyPrice` 0.1). -/
def t2tScenarioBuy : SwapInfo :=
  { signature := "SIGB", timestamp := 0,
    inputToken := { mint := NATIVE_MINT, symbol := "SOL", name := "Solana",
                    uiAmount := 1/10, decimals := 9, usdValue := some 10 },
    outputToken := { mint := "AAA", symbol := "A", name := "TokenA",
                     uiAmount := 100, decimals := 6, usdValue := none },
    wallet := "W" }

/-- Token-to-token swap: sell all 100 AAA for 1000 BBB worth 15 USD. -/
def t2tScenarioSwap : SwapInfo :=
  { signature := "SIGT", timestamp := 1,
    inputToken := { mint := "AAA", symbol := "A", name := "TokenA",
                    uiAmount := 100, decimals := 6, usdValue := some 10 },
    outputToken := { mint := "BBB", symbol := "B", name := "TokenB",
                     uiAmount := 1000, decimals := 6, usdValue := some 15 },
    wallet := "W" }

def t2tScenarioFinal : WalletPerformance :=
  applySwaps pricerNone [t2tScenarioBuy, t2tScenarioSwap] (emptyPerformance "W")

/-- The AAA position as it stands after `t2tScenarioBuy`. -/
def scenarioAAAPosition : TokenPosition :=
  { freshPosition "AAA" "A" "TokenA" with
    balance := 100, avgBuyPrice := 1/10, totalInvested := 10 }

def scenarioAAAPerf : WalletPerformance :=
  { emptyPerformance "W" with positions := [("AAA", scenarioAAAPosition)] }

/-- Buy 100 GGG for 10 USD of SOL. -/
def c4Buy : SwapInfo :=
  { signature := "SIG4B", timestamp := 0,
    inputToken := { mint := NATIVE_MINT, symbol := "SOL", name := "Solana",
                    uiAmount := 1/10, decimals := 9, usdValue := some 10 },
    outputToken := { mint := "GGG", symbol := "G", name := "TokenG",
                     uiAmount := 100, decimals := 6, usdValue := none },
    wallet := "W" }

/-- Sell all 100 GGG for 15 USD of SOL. -/
def c4Sell : SwapInfo :=
  { signature := "SIG4S", timestamp := 1,
    inputToken := { mint := "GGG", symbol := "G", name := "TokenG",
                    uiAmount := 100, decimals := 6, usdValue := none },
    outputToken := { mint := NATIVE_MINT, symbol := "SOL", name := "Solana",
                     uiAmount := 3/20, decimals := 9, usdValue := some 15 },
    wallet := "W" }

/-- Buy 10.0005 DDD for 10 USD of SOL. -/
def d5Buy : SwapInfo :=
  { signature := "SIG5", timestamp := 0,
    inputToken := { mint := NATIVE_MINT, symbol := "SOL", name := "Solana",
                    uiAmount := 1/10, decimals := 9, usdValue := some 10 },
    outputToken := { mint := "DDD", symbol := "D", name := "TokenD",
                     uiAmount := 20001/2000, decimals := 6, usdValue := none },
    wallet := "W" }

/-- Sell 10 of the 10.0005 tracked DDD: leaves 0.0005, below the dust
threshold. -/
def d5Sell : SwapInfo :=
  { signature := "SIG6", timestamp := 1,
    inputToken := { mint := "DDD", symbol := "D", name := "TokenD",
                    uiAmount := 10, decimals := 6, usdValue := none },
    outputToken := { mint := USDC_MINT, symbol := "USDC", name := "USD Coin",
                     uiAmount := 12, decimals := 6, usdValue := some 12 },
    wallet := "W" }

/-- The DDD position as recorded after `d5Buy` (computed by evaluation). -/
def d5Position : TokenPosition :=
  { mint := "DDD", symbol := "D", name := "TokenD", balance := 20001/2000,
    avgBuyPrice := 20000/20001, totalInvested := 10, currentValue := 0,
    unrealizedPnL := 0, unrealizedPnLPercent := 0,
    trades := [buyTradeOf d5Buy] }

/-- Existing EEE position: balance 10 at `avgBuyPrice` 0.5. -/
def c9Position : TokenPosition :=
  { freshPosition "EEE" "E" "TokenE" with
    balance := 10, avgBuyPrice := 1/2, totalInvested := 5 }

def c9Perf : WalletPerformance :=
  { emptyPerformance "W" with positions := [("EEE", c9Position)] }

/-- Buy 30 more EEE for 7 USD of SOL. -/
def c9BuySwap : SwapInfo :=
  { signature := "SIG9", timestamp := 0,
    inputToken := { mint := NATIVE_MINT, symbol := "SOL", name := "Solana",
                    uiAmount := 1/20, decimals := 9, usdValue := some 7 },
    outputToken := { mint := "EEE", symbol := "E", name := "TokenE",
                     uiAmount := 30, decimals := 6, usdValue := none },
    wallet := "W" }

/-- Pre/post token balances with two negative-delta candidates (M1 smaller
in magnitude than M2) and two positive-delta candidates (M3 smaller than
M4). -/
def preC6 : List TokenBalanceEntry :=
  [⟨0, "M1", 10, 6⟩, ⟨1, "M2", 10, 6⟩, ⟨2, "M3", 0, 6⟩, ⟨3, "M4", 0, 6⟩]

def postC6 : List TokenBalanceEntry :=
  [⟨0, "M1", 9, 6⟩, ⟨1, "M2", 4, 6⟩, ⟨2, "M3", 5, 6⟩, ⟨3, "M4", 7, 6⟩]

/-- A transfer: mint X moves between two token accounts of the wallet. -/
def preC7 : List TokenBalanceEntry := [⟨0, "X", 10, 6⟩, ⟨1, "X", 0, 6⟩]

def postC7 : List TokenBalanceEntry := [⟨0, "X", 0, 6⟩, ⟨1, "X", 10, 6⟩]

/-- Two positive-delta changes and no negative-delta change. -/
def preC7b : List TokenBalanceEntry := [⟨0, "P1", 0, 6⟩, ⟨1, "P2", 0, 6⟩]

def postC7b : List TokenBalanceEntry := [⟨0, "P1", 5, 6⟩, ⟨1, "P2", 5, 6⟩]

/-- A BUY whose input (base) leg has no known USD value. -/
def c8Buy : SwapInfo :=
  { signature := "SIG8", timestamp := 0,
    inputToken := { mint := NATIVE_MINT, symbol := "SOL", name := "Solana",
                    uiAmount := 1/10, decimals := 9, usdValue := none },
    outputToken := { mint := "CCC", symbol := "C", name := "TokenC",
                     uiAmount := 100, decimals := 6, usdValue := none },
    wallet := "W" }

/-! ## Helper lemmas: trade counter vs. trade list (used by C10) -/

/-- `totalTrades` agrees with the length of the `trades` list. -/
def tradesCountOk (p : WalletPerformance) : Prop :=
  p.totalTrades = p.trades.length

theorem countOk_processBuy (swap : SwapInfo) (p : WalletPerformance)
    (h : tradesCountOk p) : tradesCountOk (processBuy swap p) := by
  unfold tradesCountOk at *
  rw [processBuy_totalTrades, processBuy_trades]
  simp [h]

theorem countOk_processSell (pricer : String → Option ℚ) (swap : SwapInfo)
    (p : WalletPerformance) (h : tradesCountOk p) :
    tradesCountOk (processSell pricer swap p).1 := by
  cases hm : mapGet p.positions swap.inputToken.mint with
  | none => rw [processSell_untracked pricer swap p (Or.inl hm)]; exact h
  | some pos =>
    by_cases hb : 0 < pos.balance
    · rw [processSell_tracked pricer swap p pos hm hb]
      unfold tradesCountOk at *
      rw [sellRecorded_totalTrades, sellRecorded_trades]
      simp [h]
    · rw [processSell_untracked pricer swap p
        (Or.inr ⟨pos, hm, not_lt.mp hb⟩)]
      exact h

theorem countOk_t2t (swap : SwapInfo) (p : WalletPerformance)
    (h : tradesCountOk p) : tradesCountOk (processTokenToTokenSwap swap p) := by
  unfold processTokenToTokenSwap
  unfold tradesCountOk at *
  rw [t2tBuyPhase_totalTrades, t2tBuyPhase_trades,
    t2tSellPhase_totalTrades, t2tSellPhase_trades]
  simp [h]

theorem countOk_updateMetrics (p : WalletPerformance) (h : tradesCountOk p) :
    tradesCountOk (updateMetrics p) := by
  unfold tradesCountOk at *
  rw [updateMetrics_totalTrades, updateMetrics_trades]
  exact h

theorem countOk_step (pricer : String → Option ℚ) (swap : SwapInfo)
    (p : WalletPerformance) (h : tradesCountOk p) :
    tradesCountOk (processSwapOnPerformance pricer swap p).1 := by
  cases h1 : isBaseToken swap.inputToken.mint <;>
    cases h2 : isBaseToken swap.outputToken.mint
  · rw [dispatch_t2t pricer swap p h1 h2]
    exact countOk_updateMetrics _ (countOk_t2t swap p h)
  · rw [dispatch_sell pricer swap p h1 h2]
    exact countOk_updateMetrics _ (countOk_processSell pricer swap p h)
  · rw [dispatch_buy pricer swap p h1 h2]
    exact countOk_updateMetrics _ (countOk_processBuy swap p h)
  · rw [dispatch_baseToBase pricer swap p h1 h2]
    exact h

/-! ## Helper lemmas: realized-P&L conservation (used by C4) -/

/-- Sum of `realizedPnL` over the SELL trades of a trade list. -/
def sumSellPnL (trades : List Trade) : ℚ :=
  ((trades.filter (fun t => t.type == TradeType.SELL)).map
    (fun t => t.realizedPnL.getD 0)).sum

/-- The conservation property: summed SELL-trade P&L equals the running
`totalRealizedPnL`. -/
def conservation (p : WalletPerformance) : Prop :=
  sumSellPnL p.trades = p.totalRealizedPnL

theorem sumSellPnL_append_buy (l : List Trade) (t : Trade)
    (ht : t.type = TradeType.BUY) : sumSellPnL (l ++ [t]) = sumSellPnL l := by
  simp [sumSellPnL, List.filter_append, ht]

theorem sumSellPnL_append_sell (l : List Trade) (t : Trade) (pnl : ℚ)
    (ht : t.type = TradeType.SELL) (hp : t.realizedPnL = some pnl) :
    sumSellPnL (l ++ [t]) = sumSellPnL l + pnl := by
  simp [sumSellPnL, List.filter_append, ht, hp]

theorem conservation_processBuy (swap : SwapInfo) (p : WalletPerformance)
    (h : conservation p) : conservation (processBuy swap p) := by
  unfold conservation at *
  rw [processBuy_trades, processBuy_totalRealizedPnL,
    sumSellPnL_append_buy _ _ rfl, h]

theorem conservation_processSell (pricer : String → Option ℚ)
    (swap : SwapInfo) (p : WalletPerformance) (h : conservation p) :
    conservation (processSell pricer swap p).1 := by
  cases hm : mapGet p.positions swap.inputToken.mint with
  | none => rw [processSell_untracked pricer swap p (Or.inl hm)]; exact h
  | some pos =>
    by_cases hb : 0 < pos.balance
    · rw [processSell_tracked pricer swap p pos hm hb]
      unfold conservation at *
      rw [sellRecorded_trades, sellRecorded_totalRealizedPnL,
        sumSellPnL_append_sell _ _ _ rfl rfl, h]
    · rw [processSell_untracked pricer swap p
        (Or.inr ⟨pos, hm, not_lt.mp hb⟩)]
      exact h

theorem conservation_updateMetrics (p : WalletPerformance)
    (h : conservation p) : conservation (updateMetrics p) := by
  unfold conservation at *
  rw [updateMetrics_trades, updateMetrics_totalRealizedPnL]
  exact h

theorem conservation_step (pricer : String → Option ℚ) (swap : SwapInfo)
    (p : WalletPerformance)
    (hbs : (isBaseToken swap.inputToken.mint
            || isBaseToken swap.outputToken.mint) = true)
    (h : conservation p) :
    conservation (processSwapOnPerformance pricer swap p).1 := by
  cases h1 : isBaseToken swap.inputToken.mint <;>
    cases h2 : isBaseToken swap.outputToken.mint
  · rw [h1, h2] at hbs; cases hbs
  · rw [dispatch_sell pricer swap p h1 h2]
    exact conservation_updateMetrics _ (conservation_processSell pricer swap p h)
  · rw [dispatch_buy pricer swap p h1 h2]
    exact conservation_updateMetrics _ (conservation_processBuy swap p h)
  · rw [dispatch_baseToBase pricer swap p h1 h2]
    exact h

/-! ## Claim theorems -/

/-- C1: for every SELL applied to an existing position with balance `b > 0`
and average buy price `p`, selling amount `a` for USD value `v`, the ledger
records a SELL trade with `trackedAmount = min a b`,
`proportionalReceived = trackedAmount / a * v`,
`realizedPnL = proportionalReceived - p * trackedAmount`, adds that P&L to
`totalRealizedPnL`, and closes and removes the position whenever `b ≤ a`
(so in particular for the Scenario-C numbers b = 50, p = 1, a = 80,
v = 100, see the witness). -/
theorem C1_partial_tracking_sell_formula
    (pricer : String → Option ℚ) (swap : SwapInfo) (perf : WalletPerformance)
    (pos : TokenPosition)
    (hpos : mapGet perf.positions swap.inputToken.mint = some pos)
    (hb : 0 < pos.balance) (ha : 0 < swap.inputToken.uiAmount) :
    ∃ t : Trade,
      (processSell pricer swap perf).1.trades = perf.trades ++ [t] ∧
      t.type = TradeType.SELL ∧
      t.tokenAmount = min swap.inputToken.uiAmount pos.balance ∧
      t.usdValue = min swap.inputToken.uiAmount pos.balance
          / swap.inputToken.uiAmount * jsOrQ swap.outputToken.usdValue 0 ∧
      t.realizedPnL = some (t.usdValue - pos.avgBuyPrice * t.tokenAmount) ∧
      (processSell pricer swap perf).1.totalRealizedPnL =
        perf.totalRealizedPnL + (t.usdValue - pos.avgBuyPrice * t.tokenAmount) ∧
      (pos.balance ≤ swap.inputToken.uiAmount →
        mapGet (processSell pricer swap perf).1.positions
          swap.inputToken.mint = none) := by
  rw [processSell_tracked pricer swap perf pos hpos hb]
  refine ⟨sellTradeOf swap pos, sellRecorded_trades pricer swap perf pos,
    rfl, rfl, rfl, rfl, sellRecorded_totalRealizedPnL pricer swap perf pos, ?_⟩
  intro hba
  have hd : pos.balance - sellAmount swap pos ≤ DUST_THRESHOLD := by
    unfold sellAmount
    rw [min_eq_right hba, sub_self]
    norm_num [DUST_THRESHOLD]
  rw [sellRecorded_positions_dust pricer swap perf pos hd, mapGet_mapDelete_self]

/-- C1 witness: Scenario C (balance 50 at avgBuyPrice 1; SELL of 80 for
100 USD) yields realized P&L +12.50 and removes the position. -/
theorem C1_witness :
    (processSell pricerNone scenarioCSell scenarioCPerf).1.totalRealizedPnL
        = 25/2 ∧
    mapGet (processSell pricerNone scenarioCSell scenarioCPerf).1.positions
        "TOKA" = none := by
  obtain ⟨t, h1, h2, h3, h4, h5, h6, h7⟩ :=
    C1_partial_tracking_sell_formula pricerNone scenarioCSell scenarioCPerf
      scenarioCPosition (by decide) (by decide) (by decide)
  refine ⟨?_, h7 (by decide)⟩
  rw [h6, h4, h3]
  simp [scenarioCPerf, scenarioCPosition, scenarioCSell, emptyPerformance,
    freshPosition, jsOrQ]
  norm_num

/-- C2: a SELL whose input mint has no open position (or a zero-balance
one) is not recorded: `processSell` returns the wallet state unchanged in
every field and emits exactly the diagnostic. -/
theorem C2_sell_without_position_untouched
    (pricer : String → Option ℚ) (swap : SwapInfo) (perf : WalletPerformance)
    (h : mapGet perf.positions swap.inputToken.mint = none ∨
         ∃ pos, mapGet perf.positions swap.inputToken.mint = some pos ∧
           pos.balance = 0) :
    processSell pricer swap perf =
      (perf, [Diagnostic.sellWithoutPosition swap.inputToken.symbol]) := by
  rcases h with h | ⟨pos, hpos, hz⟩
  · exact processSell_untracked pricer swap perf (Or.inl h)
  · exact processSell_untracked pricer swap perf
      (Or.inr ⟨pos, hpos, le_of_eq hz⟩)

/-- C2 witness: Scenario B on an empty wallet. -/
theorem C2_witness :
    processSell pricerNone untrackedSell (emptyPerformance "W") =
      (emptyPerformance "W", [Diagnostic.sellWithoutPosition "X"]) :=
  C2_sell_without_position_untouched pricerNone untrackedSell
    (emptyPerformance "W") (Or.inl (by decide))

set_option maxHeartbeats 2000000 in
/-- C3 counterexample: buy 100 AAA for 10 USD, then swap all 100 AAA
(avgBuyPrice known) into BBB with no prior BBB position.  The claim says
two `Trade` records with the t2t signature are produced, one a
SELL-equivalent carrying the realized P&L; in fact the trade history holds
two BUY trades, no SELL trade at all, exactly one trade tagged "SIGT", yet
`totalRealizedPnL = 5` was realized. -/
theorem C3_counterexample :
    t2tScenarioFinal.trades.map Trade.type = [TradeType.BUY, TradeType.BUY] ∧
    (t2tScenarioFinal.trades.filter (fun t => t.type == TradeType.SELL)) = [] ∧
    t2tScenarioFinal.totalRealizedPnL = 5 ∧
    (t2tScenarioFinal.trades.filter
      (fun t => t.signature == "SIGT")).length = 1 := by
  simp [t2tScenarioFinal, t2tScenarioBuy, t2tScenarioSwap, applySwaps,
    processSwapOnPerformance, isBaseToken, NATIVE_MINT, USDC_MINT, USDT_MINT,
    processBuy, buyTradeOf, buyPositionUpdate, buyCurrentPrice,
    revaluePosition, freshPosition, mapGet, mapSet, mapDelete, jsOrQ,
    processSell, sellRecorded, sellAmount, sellProportionalReceived,
    sellRealizedPnL, sellTradeOf, bumpWinLoss, mathAbs,
    processTokenToTokenSwap, t2tSellPhase, t2tSellApplied, t2tRealizedPnL,
    t2tBuyPhase, t2tBuyPositionUpdate, t2tBuyTradeOf, t2tOutputValue,
    updateMetrics, emptyPerformance, DUST_THRESHOLD, MIN_MEANINGFUL_PNL,
    pricerNone]
  norm_num
  decide

/-- C3 amended: a token-to-token swap that disposes of the entire held
input position (with known prices) appends exactly ONE `Trade` — the BUY
for the output mint, establishing `avgBuyPrice = outputValue /
outputAmount` — while the realized P&L of the input side is added to
`totalRealizedPnL` without any SELL-equivalent `Trade` record; the input
position is closed and removed. -/
theorem C3_amended_t2t_single_trade (swap : SwapInfo)
    (perf : WalletPerformance) (pos : TokenPosition) (v : ℚ)
    (hpos : mapGet perf.positions swap.inputToken.mint = some pos)
    (hb : 0 < pos.balance)
    (hall : swap.inputToken.uiAmount = pos.balance)
    (hout : mapGet perf.positions swap.outputToken.mint = none)
    (hne : swap.inputToken.mint ≠ swap.outputToken.mint)
    (hv : swap.outputToken.usdValue = some v) (hv0 : v ≠ 0)
    (hoa : 0 < swap.outputToken.uiAmount) :
    (processTokenToTokenSwap swap perf).trades
        = perf.trades ++ [t2tBuyTradeOf swap] ∧
    (t2tBuyTradeOf swap).type = TradeType.BUY ∧
    (processTokenToTokenSwap swap perf).totalRealizedPnL
        = perf.totalRealizedPnL + (v - pos.avgBuyPrice * pos.balance) ∧
    mapGet (processTokenToTokenSwap swap perf).positions
        swap.inputToken.mint = none ∧
    (∃ q, mapGet (processTokenToTokenSwap swap perf).positions
        swap.outputToken.mint = some q ∧
      q.avgBuyPrice = v / swap.outputToken.uiAmount ∧
      q.balance = swap.outputToken.uiAmount) := by
  have hsell : t2tSellPhase swap perf = t2tSellApplied swap perf pos := by
    simp [t2tSellPhase, hpos, hb]
  have hdust : pos.balance - swap.inputToken.uiAmount ≤ DUST_THRESHOLD := by
    rw [hall, sub_self]
    norm_num [DUST_THRESHOLD]
  have hout2 : mapGet (t2tSellPhase swap perf).positions
      swap.outputToken.mint = none := by
    rw [mapGet_t2tSellPhase_ne swap perf _ (Ne.symm hne), hout]
  refine ⟨?_, rfl, ?_, ?_, ?_⟩
  · unfold processTokenToTokenSwap
    rw [t2tBuyPhase_trades, t2tSellPhase_trades]
  · unfold processTokenToTokenSwap
    rw [t2tBuyPhase_totalRealizedPnL, hsell, t2tSellApplied_totalRealizedPnL]
    congr 1
    unfold t2tRealizedPnL
    rw [hv, hall]
    simp [jsOrQ, hv0]
  · unfold processTokenToTokenSwap
    rw [t2tBuyPhase_positions, mapGet_mapSet_ne _ _ _ _ hne, hsell,
      t2tSellApplied_positions_dust swap perf pos hdust, mapGet_mapDelete_self]
  · unfold processTokenToTokenSwap
    rw [t2tBuyPhase_positions, mapGet_mapSet_self]
    refine ⟨_, rfl, ?_, ?_⟩
    · rw [hout2]
      simp [t2tBuyPositionUpdate, freshPosition, t2tOutputValue, jsOrQ, hv,
        hv0, hoa]
    · rw [hout2]
      simp [t2tBuyPositionUpdate, freshPosition]

/-- C3 witness: the amended statement instantiated on the AAA → BBB swap
over a wallet holding 100 AAA at avgBuyPrice 0.1. -/
theorem C3_witness :
    (processTokenToTokenSwap t2tScenarioSwap scenarioAAAPerf).trades
        = scenarioAAAPerf.trades ++ [t2tBuyTradeOf t2tScenarioSwap] ∧
    (t2tBuyTradeOf t2tScenarioSwap).type = TradeType.BUY ∧
    (processTokenToTokenSwap t2tScenarioSwap scenarioAAAPerf).totalRealizedPnL
        = scenarioAAAPerf.totalRealizedPnL
          + (15 - scenarioAAAPosition.avgBuyPrice * scenarioAAAPosition.balance) ∧
    mapGet (processTokenToTokenSwap t2tScenarioSwap scenarioAAAPerf).positions
        "AAA" = none ∧
    (∃ q, mapGet
        (processTokenToTokenSwap t2tScenarioSwap scenarioAAAPerf).positions
        "BBB" = some q ∧
      q.avgBuyPrice = 15 / 1000 ∧ q.balance = 1000) := by
  have h := C3_amended_t2t_single_trade t2tScenarioSwap scenarioAAAPerf
    scenarioAAAPosition 15 (by rfl) (by decide) (by decide) (by rfl)
    (by decide) (by rfl) (by decide) (by decide)
  exact ⟨h.1, h.2.1, h.2.2.1, h.2.2.2.1,
    by
      obtain ⟨q, hq, h1, h2⟩ := h.2.2.2.2
      exact ⟨q, hq, h1.trans rfl, h2.trans rfl⟩⟩

set_option maxHeartbeats 2000000 in
/-- C4 counterexample: after the buy-then-token-to-token history, the sum
of `realizedPnL` over SELL trades is 0 (there are none) while
`totalRealizedPnL` is 5 — the claimed conservation fails. -/
theorem C4_counterexample :
    sumSellPnL t2tScenarioFinal.trades ≠ t2tScenarioFinal.totalRealizedPnL := by
  simp [sumSellPnL, t2tScenarioFinal, t2tScenarioBuy, t2tScenarioSwap,
    applySwaps, processSwapOnPerformance, isBaseToken, NATIVE_MINT, USDC_MINT,
    USDT_MINT, processBuy, buyTradeOf, buyPositionUpdate, buyCurrentPrice,
    revaluePosition, freshPosition, mapGet, mapSet, mapDelete, jsOrQ,
    processSell, sellRecorded, sellAmount, sellProportionalReceived,
    sellRealizedPnL, sellTradeOf, bumpWinLoss, mathAbs,
    processTokenToTokenSwap, t2tSellPhase, t2tSellApplied, t2tRealizedPnL,
    t2tBuyPhase, t2tBuyPositionUpdate, t2tBuyTradeOf, t2tOutputValue,
    updateMetrics, emptyPerformance, DUST_THRESHOLD, MIN_MEANINGFUL_PNL,
    pricerNone]
  norm_num
  decide

/-- C4 amended: the conservation "sum of SELL-trade `realizedPnL` equals
`totalRealizedPnL`" holds after every applied swap provided the history
contains no token-to-token swap (every event has a base-token leg) — the
token-to-token path adds realized P&L without appending a SELL
trade. -/
theorem C4_conservation_base_swaps (pricer : String → Option ℚ)
    (swaps : List SwapInfo) (w : String)
    (h : ∀ s ∈ swaps, (isBaseToken s.inputToken.mint
          || isBaseToken s.outputToken.mint) = true) :
    sumSellPnL (applySwaps pricer swaps (emptyPerformance w)).trades =
      (applySwaps pricer swaps (emptyPerformance w)).totalRealizedPnL := by
  exact applySwaps_invariant pricer conservation swaps (emptyPerformance w)
    (fun s q hs hq => conservation_step pricer s q (h s hs) hq)
    (by simp [conservation, sumSellPnL, emptyPerformance])

/-- C4 witness: a BUY-then-SELL history through base tokens keeps the
conservation equality. -/
theorem C4_witness :
    sumSellPnL (applySwaps pricerNone [c4Buy, c4Sell]
        (emptyPerformance "W")).trades =
      (applySwaps pricerNone [c4Buy, c4Sell]
        (emptyPerformance "W")).totalRealizedPnL :=
  C4_conservation_base_swaps pricerNone [c4Buy, c4Sell] "W" (by decide)

set_option maxHeartbeats 2000000 in
/-- C5 counterexample: buy 10.0005 DDD, then sell 10.  The remaining
balance 0.0005 is nonzero, yet the position is removed from the map (dust
threshold 0.001), refuting "removed exactly when its balance reaches
zero". -/
theorem C5_counterexample :
    ((mapGet (applySwaps pricerNone [d5Buy]
        (emptyPerformance "W")).positions "DDD").map TokenPosition.balance
      = some (20001/2000)) ∧
    mapGet (applySwaps pricerNone [d5Buy, d5Sell]
        (emptyPerformance "W")).positions "DDD" = none ∧
    (20001/2000 - 10 : ℚ) ≠ 0 := by
  simp [d5Buy, d5Sell, applySwaps, processSwapOnPerformance, isBaseToken,
    NATIVE_MINT, USDC_MINT, USDT_MINT, processBuy, buyTradeOf,
    buyPositionUpdate, buyCurrentPrice, revaluePosition, freshPosition,
    mapGet, mapSet, mapDelete, jsOrQ, processSell, sellRecorded, sellAmount,
    sellProportionalReceived, sellRealizedPnL, sellTradeOf, bumpWinLoss,
    mathAbs, processTokenToTokenSwap, t2tSellPhase, t2tSellApplied,
    t2tRealizedPnL, t2tBuyPhase, t2tBuyPositionUpdate, t2tBuyTradeOf,
    t2tOutputValue, updateMetrics, emptyPerformance, DUST_THRESHOLD,
    MIN_MEANINGFUL_PNL, pricerNone]
  norm_num
  decide

/-- C5 amended: provided every swap's output amount is positive (the
classifier guarantees amounts above the noise floor), every position
retained in the map has strictly positive balance — so `balance = 0`
implies absence — but removal happens at the dust threshold
`balance ≤ 0.001`, not exactly at zero. -/
theorem C5_positions_positive_balance (pricer : String → Option ℚ)
    (swaps : List SwapInfo) (w : String)
    (h : ∀ s ∈ swaps, 0 < s.outputToken.uiAmount) :
    ∀ m q, mapGet (applySwaps pricer swaps
        (emptyPerformance w)).positions m = some q → 0 < q.balance := by
  exact applySwaps_invariant pricer posInv swaps (emptyPerformance w)
    (fun s q hs hq => posInv_step pricer s q (h s hs) hq)
    (by intro m q hq; simp [emptyPerformance, mapGet] at hq)

/-- C5 witness: the position held after the 10.0005-DDD buy has positive
balance. -/
theorem C5_witness : 0 < d5Position.balance := by
  refine C5_positions_positive_balance pricerNone [d5Buy] "W" ?_ "DDD"
    d5Position ?_
  · intro s hs
    rw [List.mem_singleton] at hs
    subst hs
    norm_num [d5Buy]
  · simp [d5Buy, d5Position, applySwaps, processSwapOnPerformance,
      isBaseToken, NATIVE_MINT, USDC_MINT, USDT_MINT, processBuy, buyTradeOf,
      buyPositionUpdate, buyCurrentPrice, revaluePosition, freshPosition,
      mapGet, mapSet, mapDelete, jsOrQ, updateMetrics, emptyPerformance,
      mathAbs, pricerNone]
    norm_num

/-- C10: after any sequence of processed swaps, `totalTrades` equals the
length of the `trades` list — every path that appends a `Trade` increments
the counter by exactly one and vice versa. -/
theorem C10_total_trades_eq_length (pricer : String → Option ℚ)
    (swaps : List SwapInfo) (w : String) :
    (applySwaps pricer swaps (emptyPerformance w)).totalTrades =
      (applySwaps pricer swaps (emptyPerformance w)).trades.length :=
  applySwaps_invariant pricer tradesCountOk swaps (emptyPerformance w)
    (fun s q _ hq => countOk_step pricer s q hq)
    (by simp [tradesCountOk, emptyPerformance])

set_option maxHeartbeats 2000000 in
/-- C6 counterexample: with qualifying deltas M1 (−1), M2 (−6), M3 (+5),
M4 (+7) in that order, the classifier picks M1 as input and M3 as output —
the FIRST candidates in scan order — although M2 and M4 have strictly
larger magnitudes, refuting "the largest-magnitude one wins". -/
theorem C6_counterexample :
    collectChanges preC6 postC6 =
      [⟨"M1", -1, 6⟩, ⟨"M2", -6, 6⟩, ⟨"M3", 5, 6⟩, ⟨"M4", 7, 6⟩] ∧
    (parseGenericSwap (fun _ => none) pricerNone "S" 0 "W"
        (some preC6) (some postC6)).map
      (fun s => (s.inputToken.mint, s.inputToken.uiAmount,
        s.outputToken.mint, s.outputToken.uiAmount))
      = some ("M1", 1, "M3", 5) ∧
    (1 : ℚ) < 6 ∧ (5 : ℚ) < 7 := by
  simp [collectChanges, preC6, postC6, NOISE_FLOOR, mathAbs,
    parseGenericSwap, mkLeg, List.find?, List.filterMap_cons,
    List.filterMap_nil, pricerNone]
  norm_num

/-- C6 amended: the classifier selects the FIRST qualifying negative-delta
change (in post-balance scan order) as the input leg and the first
positive-delta change as the output leg, regardless of magnitude. -/
theorem C6_first_seen_selection
    (info : String → Option TokenMeta) (price : String → Option ℚ)
    (sig : String) (ts : ℕ) (w : String)
    (pre post : List TokenBalanceEntry)
    (pfx1 : List BalanceChange) (i : BalanceChange) (sfx1 : List BalanceChange)
    (pfx2 : List BalanceChange) (o : BalanceChange) (sfx2 : List BalanceChange)
    (hdec1 : collectChanges pre post = pfx1 ++ i :: sfx1)
    (hneg1 : ∀ j ∈ pfx1, 0 ≤ j.change) (hi : i.change < 0)
    (hdec2 : collectChanges pre post = pfx2 ++ o :: sfx2)
    (hpos2 : ∀ j ∈ pfx2, j.change ≤ 0) (ho : 0 < o.change)
    (hlen : 2 ≤ (collectChanges pre post).length) :
    parseGenericSwap info price sig ts w (some pre) (some post) =
      some { signature := sig, timestamp := ts,
             inputToken := mkLeg info price i,
             outputToken := mkLeg info price o, wallet := w } := by
  have hf1 : (collectChanges pre post).find?
      (fun c => decide (c.change < 0)) = some i := by
    rw [hdec1]
    exact find?_append_first _ pfx1 i sfx1
      (fun x hx => by simp [not_lt.mpr (hneg1 x hx)]) (by simp [hi])
  have hf2 : (collectChanges pre post).find?
      (fun c => decide (0 < c.change)) = some o := by
    rw [hdec2]
    exact find?_append_first _ pfx2 o sfx2
      (fun x hx => by simp [not_lt.mpr (hpos2 x hx)]) (by simp [ho])
  simp only [parseGenericSwap]
  rw [if_neg (Nat.not_lt.mpr hlen), hf1, hf2]

set_option maxHeartbeats 2000000 in
/-- C6 witness: the amended selection rule instantiated on the four-delta
record: the legs are built from M1 and M3, the earliest candidates. -/
theorem C6_witness :
    parseGenericSwap (fun _ => none) pricerNone "S" 0 "W"
        (some preC6) (some postC6) =
      some { signature := "S", timestamp := 0,
             inputToken := mkLeg (fun _ => none) pricerNone ⟨"M1", -1, 6⟩,
             outputToken := mkLeg (fun _ => none) pricerNone ⟨"M3", 5, 6⟩,
             wallet := "W" } := by
  have hch : collectChanges preC6 postC6 =
      [⟨"M1", -1, 6⟩, ⟨"M2", -6, 6⟩, ⟨"M3", 5, 6⟩, ⟨"M4", 7, 6⟩] := by
    simp [collectChanges, preC6, postC6, NOISE_FLOOR, mathAbs,
      List.filterMap_cons, List.filterMap_nil]
    norm_num
  exact C6_first_seen_selection (fun _ => none) pricerNone "S" 0 "W"
    preC6 postC6
    [] ⟨"M1", -1, 6⟩ [⟨"M2", -6, 6⟩, ⟨"M3", 5, 6⟩, ⟨"M4", 7, 6⟩]
    [⟨"M1", -1, 6⟩, ⟨"M2", -6, 6⟩] ⟨"M3", 5, 6⟩ [⟨"M4", 7, 6⟩]
    hch (by simp) (by norm_num)
    hch (by decide) (by norm_num)
    (by rw [hch]; decide)

/-- C7 counterexample: a same-mint transfer (mint X moving between two of
the wallet's token accounts) is returned by the classifier as a swap whose
input and output legs share the mint, refuting "the classifier returns
null when the candidate legs share the same mint". -/
theorem C7_counterexample :
    (parseGenericSwap (fun _ => none) pricerNone "S" 0 "W"
        (some preC7) (some postC7)).map
      (fun s => (s.inputToken.mint, s.outputToken.mint)) = some ("X", "X") := by
  simp [parseGenericSwap, collectChanges, preC7, postC7, NOISE_FLOOR,
    mathAbs, mkLeg, List.find?, List.filterMap_cons, List.filterMap_nil,
    pricerNone]
  norm_num

/-- C7 amended: the classifier returns null when fewer than two qualifying
deltas exist or when either the negative-delta or positive-delta candidate
is missing; it does NOT reject equal-mint legs itself — that rejection is
performed by the caller (`handleTransaction`), which accepts a parsed swap
only if its legs differ in mint (and symbol), so only distinct-mint swaps
reach the ledger. -/
theorem C7_null_cases_and_caller_gate :
    (∀ (info : String → Option TokenMeta) (price : String → Option ℚ)
       (sig : String) (ts : ℕ) (w : String)
       (pre post : List TokenBalanceEntry),
       (collectChanges pre post).length < 2 →
       parseGenericSwap info price sig ts w (some pre) (some post) = none) ∧
    (∀ (info : String → Option TokenMeta) (price : String → Option ℚ)
       (sig : String) (ts : ℕ) (w : String)
       (pre post : List TokenBalanceEntry),
       ((collectChanges pre post).find?
           (fun c => decide (c.change < 0)) = none ∨
        (collectChanges pre post).find?
           (fun c => decide (0 < c.change)) = none) →
       parseGenericSwap info price sig ts w (some pre) (some post) = none) ∧
    (∀ s : SwapInfo, callerAcceptsSwap s = true →
       s.inputToken.mint ≠ s.outputToken.mint) := by
  refine ⟨?_, ?_, ?_⟩
  · intro info price sig ts w pre post h
    simp only [parseGenericSwap]
    rw [if_pos h]
  · intro info price sig ts w pre post h
    simp only [parseGenericSwap]
    by_cases hlen : (collectChanges pre post).length < 2
    · rw [if_pos hlen]
    · rw [if_neg hlen]
      rcases h with h | h
      · rw [h]
      · rw [h]
        cases (collectChanges pre post).find?
          (fun c => decide (c.change < 0)) <;> rfl
  · intro s hacc
    simp [callerAcceptsSwap] at hacc
    exact hacc.1.1

/-- C7 witness: the three amended statements at concrete inputs — empty
balance data parses to null; an all-positive delta record parses to null;
the caller gate passes only distinct-mint swaps (here AAA ≠ BBB). -/
theorem C7_witness :
    parseGenericSwap (fun _ => none) pricerNone "S" 0 "W"
      (some []) (some []) = none ∧
    parseGenericSwap (fun _ => none) pricerNone "S" 0 "W"
      (some preC7b) (some postC7b) = none ∧
    t2tScenarioSwap.inputToken.mint ≠ t2tScenarioSwap.outputToken.mint := by
  refine ⟨C7_null_cases_and_caller_gate.1 _ _ _ _ _ _ _ (by decide),
    C7_null_cases_and_caller_gate.2.1 _ _ _ _ _ _ _ (Or.inl ?_),
    C7_null_cases_and_caller_gate.2.2 t2tScenarioSwap (by decide)⟩
  simp [collectChanges, preC7b, postC7b, NOISE_FLOOR, mathAbs, List.find?,
    List.filterMap_cons, List.filterMap_nil]
  norm_num

set_option maxHeartbeats 2000000 in
/-- C8 counterexample: a BUY whose input-leg USD value is unknown records
`usdValue = 0` on the trade, `totalInvested = 0` on the position, and the
new position's `currentValue` is the number 0 (the `TokenPosition` type has
no absent state for it) — unknown is collapsed to zero in the ledger,
refuting the claim for the ledger side. -/
theorem C8_counterexample :
    (processBuy c8Buy (emptyPerformance "W")).trades.map Trade.usdValue
      = [0] ∧
    ((mapGet (processBuy c8Buy (emptyPerformance "W")).positions "CCC").map
      (fun q => (q.totalInvested, q.currentValue))) = some (0, 0) := by
  simp [c8Buy, processBuy, buyTradeOf, buyPositionUpdate, buyCurrentPrice,
    revaluePosition, freshPosition, mapGet, mapSet, jsOrQ, emptyPerformance]

/-- C8 amended: the CLASSIFIER leaves a leg's `usdValue` absent when the
price is unavailable (or zero, by JS truthiness); the LEDGER however
coerces an absent value to zero: a BUY with unknown input value records
`usdValue = 0` on its trade, and a fresh position's `currentValue` is
initialised to the number 0. -/
theorem C8_unknown_price_handling :
    (∀ (info : String → Option TokenMeta) (price : String → Option ℚ)
       (c : BalanceChange),
       price c.mint = none ∨ price c.mint = some 0 →
       (mkLeg info price c).usdValue = none) ∧
    (∀ swap : SwapInfo, swap.inputToken.usdValue = none →
       (buyTradeOf swap).usdValue = 0) ∧
    (∀ (swap : SwapInfo) (perf : WalletPerformance),
       (processBuy swap perf).trades = perf.trades ++ [buyTradeOf swap]) ∧
    (∀ mint symbol name, (freshPosition mint symbol name).currentValue = 0) := by
  refine ⟨?_, ?_, fun swap perf => processBuy_trades swap perf,
    fun _ _ _ => rfl⟩
  · intro info price c h
    rcases h with h | h <;> simp [mkLeg, h]
  · intro swap h
    simp [buyTradeOf, jsOrQ, h]

/-- C8 witness: the amended statements at concrete inputs (an unpriced
mint, and the unknown-value BUY `c8Buy`). -/
theorem C8_witness :
    (mkLeg (fun _ => none) pricerNone ⟨"Z", 3, 6⟩).usdValue = none ∧
    (buyTradeOf c8Buy).usdValue = 0 ∧
    (processBuy c8Buy (emptyPerformance "W")).trades =
      (emptyPerformance "W").trades ++ [buyTradeOf c8Buy] ∧
    (freshPosition "CCC" "C" "TokenC").currentValue = 0 :=
  ⟨C8_unknown_price_handling.1 (fun _ => none) pricerNone ⟨"Z", 3, 6⟩
      (Or.inl rfl),
    C8_unknown_price_handling.2.1 c8Buy rfl,
    C8_unknown_price_handling.2.2.1 c8Buy (emptyPerformance "W"),
    C8_unknown_price_handling.2.2.2 "CCC" "C" "TokenC"⟩

/-- C9: immediately after any BUY (through `processBuy`, and through the
buy half of `processTokenToTokenSwap` when the legs have distinct mints),
the updated position satisfies `avgBuyPrice × balance = totalInvested`
exactly (in `ℚ`), given a positive bought amount and a non-negative prior
balance. -/
theorem C9_avg_buy_price_invariant (swap : SwapInfo)
    (perf : WalletPerformance) (ha : 0 < swap.outputToken.uiAmount)
    (hbase : 0 ≤ ((mapGet perf.positions swap.outputToken.mint).getD
        (freshPosition swap.outputToken.mint swap.outputToken.symbol
          swap.outputToken.name)).balance) :
    (∃ q, mapGet (processBuy swap perf).positions
        swap.outputToken.mint = some q ∧
      q.avgBuyPrice * q.balance = q.totalInvested) ∧
    (swap.inputToken.mint ≠ swap.outputToken.mint →
     ∃ q, mapGet (processTokenToTokenSwap swap perf).positions
        swap.outputToken.mint = some q ∧
      q.avgBuyPrice * q.balance = q.totalInvested) := by
  constructor
  · refine ⟨_, by rw [processBuy_positions, mapGet_mapSet_self], ?_⟩
    simp only [buyPositionUpdate, revaluePosition_balance,
      revaluePosition_avgBuyPrice, revaluePosition_totalInvested]
    have hpos : 0 < ((mapGet perf.positions swap.outputToken.mint).getD
        (freshPosition swap.outputToken.mint swap.outputToken.symbol
          swap.outputToken.name)).balance + swap.outputToken.uiAmount :=
      add_pos_of_nonneg_of_pos hbase ha
    rw [if_pos hpos, div_mul_cancel₀ _ (ne_of_gt hpos)]
  · intro hne
    have hEq : mapGet (t2tSellPhase swap perf).positions
        swap.outputToken.mint = mapGet perf.positions swap.outputToken.mint :=
      mapGet_t2tSellPhase_ne swap perf _ (Ne.symm hne)
    unfold processTokenToTokenSwap
    refine ⟨_, by rw [t2tBuyPhase_positions, mapGet_mapSet_self], ?_⟩
    rw [hEq]
    simp only [t2tBuyPositionUpdate]
    have hpos : 0 < ((mapGet perf.positions swap.outputToken.mint).getD
        (freshPosition swap.outputToken.mint swap.outputToken.symbol
          swap.outputToken.name)).balance + swap.outputToken.uiAmount :=
      add_pos_of_nonneg_of_pos hbase ha
    rw [if_pos hpos, div_mul_cancel₀ _ (ne_of_gt hpos)]

/-- C9 witness: buying 30 more EEE for 7 USD on top of a position of 10 at
avgBuyPrice 0.5 re-establishes `avgBuyPrice × balance = totalInvested`,
both via `processBuy` and via the token-to-token buy half. -/
theorem C9_witness :
    (∃ q, mapGet (processBuy c9BuySwap c9Perf).positions "EEE" = some q ∧
      q.avgBuyPrice * q.balance = q.totalInvested) ∧
    (∃ q, mapGet (processTokenToTokenSwap c9BuySwap c9Perf).positions
        "EEE" = some q ∧
      q.avgBuyPrice * q.balance = q.totalInvested) := by
  have h := C9_avg_buy_price_invariant c9BuySwap c9Perf (by decide) (by decide)
  exact ⟨h.1, h.2 (by decide)⟩

end SolanaWalletTracker
